import Mathlib

/-
Verification development for the gocryptotrader market-data and signing core.

Source files embedded here:
  * src/exchanges/liqui/liqui.go    — the Liqui exchange adapter: authenticated
    request signing (nonce sequencing + HMAC-SHA512), fee estimation,
    available-pair listing, order cancellation.
  * src/unnamed/part_000            — the Poloniex wrapper: cache get-or-refresh
    for tickers and orderbooks, batch cache updates, unimplemented-operation
    stubs.

Conventions of the embedding:
  * Go machine integers are modelled as Lean Int / Nat; Go float64 market
    quantities are modelled as rationals (only sign and ordering of fees and
    prices matter to the claims settled here).
  * Go maps are modelled as association lists with first-match lookup and
    a zero-value default where the source relies on Go's zero-value reads.
  * Fallible operations return Except / Option; the external HTTP transport
    is an explicit parameter (the value it would produce), and functions that
    invoke it report an invocation count so that fail-fast properties are
    expressible.
  * Code of the repository that the wrapper calls but that is outside the
    given sources (the common, ticker, orderbook and exchange base packages,
    plus the Go standard library url encoding) is modelled from the spec;
    each such definition carries a doc comment saying so.
-/

set_option autoImplicit false

namespace GCT

/-- Go error values as produced by errors.New and fmt.Errorf in the source:
every error constructed by the embedded code is a plain string error. -/
inductive GoError where
  | errorString (msg : String) : GoError
deriving DecidableEq, Repr

/-- Embedding of Go errors.New: wraps a message into a plain string error. -/
def errorsNew (msg : String) : GoError := .errorString msg

/-- Association-list lookup with decidable key equality: first match wins.
Models Go map indexing (the present/absent distinction). -/
def alookup {α β : Type} [DecidableEq α] : List (α × β) → α → Option β
  | [], _ => none
  | (k, v) :: t, key => if key = k then some v else alookup t key

/-- Modulus of 64-bit words. -/
def w64 : Nat := 18446744073709551616

/-- Addition of 64-bit words. -/
def add64 (a b : Nat) : Nat := (a + b) % w64

/-- Bitwise and of 64-bit words. -/
def and64 (a b : Nat) : Nat := a &&& b

/-- Bitwise xor of 64-bit words. -/
def xor64 (a b : Nat) : Nat := a ^^^ b

/-- Bitwise complement of a 64-bit word. -/
def not64 (a : Nat) : Nat := (w64 - 1) ^^^ (a % w64)

/-- Logical right shift of a 64-bit word. -/
def shr64 (x n : Nat) : Nat := (x % w64) >>> n

/-- Right rotation of a 64-bit word. -/
def rotr64 (x n : Nat) : Nat := ((x % w64) >>> n ||| (x % w64) <<< (64 - n)) % w64

/-- Modelled from the spec: the SHA-512 round constants (FIPS 180-4), needed
because the repository's common.GetHMAC (HMAC-SHA512) is outside the given
sources; the spec fixes the algorithm as HMAC-SHA512. -/
def sha512K : List Nat :=
  [4794697086780616226, 8158064640168781261, 13096744586834688815, 16840607885511220156,
   4131703408338449720, 6480981068601479193, 10538285296894168987, 12329834152419229976,
   15566598209576043074, 1334009975649890238, 2608012711638119052, 6128411473006802146,
   8268148722764581231, 9286055187155687089, 11230858885718282805, 13951009754708518548,
   16472876342353939154, 17275323862435702243, 1135362057144423861, 2597628984639134821,
   3308224258029322869, 5365058923640841347, 6679025012923562964, 8573033837759648693,
   10970295158949994411, 12119686244451234320, 12683024718118986047, 13788192230050041572,
   14330467153632333762, 15395433587784984357, 489312712824947311, 1452737877330783856,
   2861767655752347644, 3322285676063803686, 5560940570517711597, 5996557281743188959,
   7280758554555802590, 8532644243296465576, 9350256976987008742, 10552545826968843579,
   11727347734174303076, 12113106623233404929, 14000437183269869457, 14369950271660146224,
   15101387698204529176, 15463397548674623760, 17586052441742319658, 1182934255886127544,
   1847814050463011016, 2177327727835720531, 2830643537854262169, 3796741975233480872,
   4115178125766777443, 5681478168544905931, 6601373596472566643, 7507060721942968483,
   8399075790359081724, 8693463985226723168, 9568029438360202098, 10144078919501101548,
   10430055236837252648, 11840083180663258601, 13761210420658862357, 14299343276471374635,
   14566680578165727644, 15097957966210449927, 16922976911328602910, 17689382322260857208,
   500013540394364858, 748580250866718886, 1242879168328830382, 1977374033974150939,
   2944078676154940804, 3659926193048069267, 4368137639120453308, 4836135668995329356,
   5532061633213252278, 6448918945643986474, 6902733635092675308, 7801388544844847127]

/-- Intermediate SHA-512 hash state: the eight working variables. -/
structure Sha512State where
  a : Nat
  b : Nat
  c : Nat
  d : Nat
  e : Nat
  f : Nat
  g : Nat
  h : Nat
deriving DecidableEq, Repr

/-- SHA-512 big Sigma-0 function. -/
def bigSigma0 (x : Nat) : Nat := xor64 (rotr64 x 28) (xor64 (rotr64 x 34) (rotr64 x 39))

/-- SHA-512 big Sigma-1 function. -/
def bigSigma1 (x : Nat) : Nat := xor64 (rotr64 x 14) (xor64 (rotr64 x 18) (rotr64 x 41))

/-- SHA-512 small sigma-0 function. -/
def smallSigma0 (x : Nat) : Nat := xor64 (rotr64 x 1) (xor64 (rotr64 x 8) (shr64 x 7))

/-- SHA-512 small sigma-1 function. -/
def smallSigma1 (x : Nat) : Nat := xor64 (rotr64 x 19) (xor64 (rotr64 x 61) (shr64 x 6))

/-- SHA-512 choice function. -/
def ch64 (x y z : Nat) : Nat := xor64 (and64 x y) (and64 (not64 x) z)

/-- SHA-512 majority function. -/
def maj64 (x y z : Nat) : Nat := xor64 (and64 x y) (xor64 (and64 x z) (and64 y z))

/-- Big-endian interpretation of a byte list as a word. -/
def beWord (bytes : List Nat) : Nat := bytes.foldl (fun acc b => acc * 256 + b % 256) 0

/-- Big-endian byte decomposition of a 64-bit word. -/
def wordBytesBE (x : Nat) : List Nat :=
  [x / 2 ^ 56 % 256, x / 2 ^ 48 % 256, x / 2 ^ 40 % 256, x / 2 ^ 32 % 256,
   x / 2 ^ 24 % 256, x / 2 ^ 16 % 256, x / 2 ^ 8 % 256, x % 256]

/-- Big-endian byte decomposition of a value into a fixed number of bytes. -/
def natBytesBE : Nat → Nat → List Nat
  | 0, _ => []
  | n + 1, v => natBytesBE n (v / 256) ++ [v % 256]

/-- SHA-512 message padding: append 0x80, zero bytes, and the 128-bit
big-endian bit length, reaching a multiple of 128 bytes. -/
def sha512Pad (msg : List Nat) : List Nat :=
  let len := msg.length
  let zeros := (128 - (len + 17) % 128) % 128
  msg ++ [128] ++ List.replicate zeros 0 ++ natBytesBE 16 (len * 8)

/-- Split a byte list into a given number of 128-byte blocks. -/
def chunks128 : Nat → List Nat → List (List Nat)
  | 0, _ => []
  | n + 1, l => l.take 128 :: chunks128 n (l.drop 128)

/-- The sixteen big-endian 64-bit words of a 128-byte block. -/
def wordsOfBlock (blk : List Nat) : List Nat :=
  (List.range 16).map (fun i => beWord ((blk.drop (8 * i)).take 8))

/-- Extend the SHA-512 message schedule by the given number of words. -/
def extendSchedule : Nat → List Nat → List Nat
  | 0, ws => ws
  | n + 1, ws =>
      let t := ws.length
      let nw := add64 (smallSigma1 (ws.getD (t - 2) 0))
                  (add64 (ws.getD (t - 7) 0)
                    (add64 (smallSigma0 (ws.getD (t - 15) 0)) (ws.getD (t - 16) 0)))
      extendSchedule n (ws ++ [nw])

/-- One SHA-512 compression round: consumes a (schedule word, round constant)
pair. -/
def sha512Round (st : Sha512State) (wk : Nat × Nat) : Sha512State :=
  let t1 := add64 st.h (add64 (bigSigma1 st.e) (add64 (ch64 st.e st.f st.g) (add64 wk.2 wk.1)))
  let t2 := add64 (bigSigma0 st.a) (maj64 st.a st.b st.c)
  ⟨add64 t1 t2, st.a, st.b, st.c, add64 st.d t1, st.e, st.f, st.g⟩

/-- Process one 128-byte block of the SHA-512 input. -/
def sha512Block (hs : Sha512State) (blk : List Nat) : Sha512State :=
  let ws := extendSchedule 64 (wordsOfBlock blk)
  let fin := (ws.zip sha512K).foldl sha512Round hs
  ⟨add64 hs.a fin.a, add64 hs.b fin.b, add64 hs.c fin.c, add64 hs.d fin.d,
   add64 hs.e fin.e, add64 hs.f fin.f, add64 hs.g fin.g, add64 hs.h fin.h⟩

/-- The SHA-512 initial hash value (FIPS 180-4). -/
def sha512InitState : Sha512State :=
  ⟨7640891576956012808, 13503953896175478587, 4354685564936845355, 11912009170470909681,
   5840696475078001361, 11170449401992604703, 2270897969802886507, 6620516959819538809⟩

/-- SHA-512 of a byte list. -/
def sha512 (msg : List Nat) : List Nat :=
  let padded := sha512Pad msg
  let fin := (chunks128 (padded.length / 128) padded).foldl sha512Block sha512InitState
  wordBytesBE fin.a ++ wordBytesBE fin.b ++ wordBytesBE fin.c ++ wordBytesBE fin.d ++
  wordBytesBE fin.e ++ wordBytesBE fin.f ++ wordBytesBE fin.g ++ wordBytesBE fin.h

/-- HMAC-SHA512 (FIPS 198): key padded to the 128-byte block size, inner and
outer hashes with the 0x36 / 0x5c pads. -/
def hmacSHA512 (key msg : List Nat) : List Nat :=
  let k0 := if 128 < key.length then sha512 key else key
  let kp := k0 ++ List.replicate (128 - k0.length) 0
  let inner := sha512 (kp.map (fun b => (b % 256) ^^^ 54) ++ msg)
  sha512 (kp.map (fun b => (b % 256) ^^^ 92) ++ inner)

/-- Modelled from the spec: common.GetHMAC with the HashSHA512 tag (the common
package is outside the given sources); the spec fixes it as HMAC-SHA512 over
the encoded body under the configured secret. Argument order follows the call
site in liqui.go: payload first, key second. -/
def getHMAC (msg key : List Nat) : List Nat := hmacSHA512 key msg

/-- Lowercase hexadecimal digit of the low four bits of a value. -/
def lowerHexDigit : Nat → Char
  | 0 => '0'
  | 1 => '1'
  | 2 => '2'
  | 3 => '3'
  | 4 => '4'
  | 5 => '5'
  | 6 => '6'
  | 7 => '7'
  | 8 => '8'
  | 9 => '9'
  | 10 => 'a'
  | 11 => 'b'
  | 12 => 'c'
  | 13 => 'd'
  | 14 => 'e'
  | 15 => 'f'
  | _ => 'f'

/-- The sixteen lowercase hexadecimal digits. -/
def hexCharsLower : List Char := "0123456789abcdef".data

/-- Character list of the lowercase hexadecimal rendering of a byte list. -/
def hexDigitsOf (bs : List Nat) : List Char :=
  bs.foldr (fun b acc => lowerHexDigit (b / 16 % 16) :: lowerHexDigit (b % 16) :: acc) []

/-- Modelled from the spec: common.HexEncodeToString (the common package is
outside the given sources) — the lowercase hexadecimal rendering of a byte
string, as produced by Go's hex.EncodeToString. -/
def hexEncodeToString (bs : List Nat) : String := String.mk (hexDigitsOf bs)

/-- UTF-8 bytes of a string, as plain naturals. -/
def strBytes (s : String) : List Nat := s.toUTF8.toList.map (fun b => b.toNat)

/-- Uppercase hexadecimal digit of the low four bits of a value. -/
def upperHexDigit : Nat → Char
  | 0 => '0'
  | 1 => '1'
  | 2 => '2'
  | 3 => '3'
  | 4 => '4'
  | 5 => '5'
  | 6 => '6'
  | 7 => '7'
  | 8 => '8'
  | 9 => '9'
  | 10 => 'A'
  | 11 => 'B'
  | 12 => 'C'
  | 13 => 'D'
  | 14 => 'E'
  | 15 => 'F'
  | _ => 'F'

/-- Whether a byte is left unescaped by Go's url.QueryEscape: ASCII
alphanumerics and the marks minus, underscore, dot, tilde. -/
def isUnreservedByte (b : Nat) : Bool :=
  (48 ≤ b && b ≤ 57) || (65 ≤ b && b ≤ 90) || (97 ≤ b && b ≤ 122) ||
  b == 45 || b == 95 || b == 46 || b == 126

/-- Escape one byte the way Go's url.QueryEscape does: unreserved bytes kept,
space turned into plus, anything else percent-encoded in uppercase hex. -/
def queryEscapeByte (b : Nat) : List Char :=
  if isUnreservedByte b then [Char.ofNat b]
  else if b == 32 then ['+']
  else ['%', upperHexDigit (b / 16 % 16), upperHexDigit (b % 16)]

/-- Modelled from the spec: Go's url.QueryEscape (standard library, outside the
given sources) applied over the UTF-8 bytes of a string. -/
def queryEscape (s : String) : String :=
  String.mk ((strBytes s).foldr (fun b acc => queryEscapeByte b ++ acc) [])

/-- Embedding of Go's url.Values as used by the source: an association list of
parameter name and value; the source only ever uses single-valued keys (Set
and Add on fresh keys). -/
abbrev Values := List (String × String)

/-- Modelled from the spec: url.Values.Set (standard library, outside the given
sources) — replace the value of an existing key, or append the key. -/
def valuesSet (vs : Values) (k v : String) : Values :=
  if vs.any (fun p => p.1 == k) then vs.map (fun p => if p.1 == k then (k, v) else p)
  else vs ++ [(k, v)]

/-- Modelled from the spec: url.Values.Encode (standard library, outside the
given sources) — the deterministic form-url-encoded rendering: keys sorted,
each pair rendered as escaped key, equals sign, escaped value, pairs joined
by ampersands. This is the stable, reproducible encoding the spec requires
because it is what gets signed. -/
def valuesEncode (vs : Values) : String :=
  let sorted := vs.mergeSort (fun a b => a.1 ≤ b.1)
  String.intercalate "&" (sorted.map (fun p => queryEscape p.1 ++ "=" ++ queryEscape p.2))

/-- Modelled from the spec: common.StringToUpper (the common package is outside
the given sources) — ASCII uppercase of a string, as strings.ToUpper. -/
def stringToUpper (s : String) : String := String.mk (s.data.map Char.toUpper)

namespace Liqui

/-- Logical method name constant liquiCancelOrder of liqui.go. -/
def liquiCancelOrder : String := "CancelOrder"

/-- The fields of the exchange.Base / Liqui receiver that the embedded
functions read or write: name, the authenticated-API flag set from the
configuration, the API key and secret, the session nonce, and the private
endpoint URL. -/
structure LiquiBase where
  name : String
  authenticatedAPISupport : Bool
  apiKey : String
  apiSecret : String
  nonce : Int
  apiUrlSecondary : String
deriving DecidableEq, Repr

/-- Modelled from the spec: exchange Nonce.Get (the exchange base package is
outside the given sources) — read the session nonce. -/
def nonceGet (n : Int) : Int := n

/-- Modelled from the spec: exchange Nonce.Set — overwrite the session nonce. -/
def nonceSet (_old v : Int) : Int := v

/-- Modelled from the spec: exchange Nonce.Inc — subsequent calls return the
previous nonce plus one. -/
def nonceInc (n : Int) : Int := n + 1

/-- Modelled from the spec: exchange Nonce.String — decimal rendering of the
session nonce. -/
def nonceString (n : Int) : String := toString n

/-- The nonce value after one pass through the seeding branch of
SendAuthenticatedHTTPRequest: seed from the wall clock when the session nonce
is still zero, otherwise increment. -/
def nonceAfterCall (now n : Int) : Int :=
  if nonceGet n = 0 then nonceSet n now else nonceInc n

/-- Modelled from the spec: exchange.WarningAuthenticatedRequestWithoutCredentialsSet
(the exchange base package is outside the given sources) — the MissingCredentials
outcome produced when a private call is attempted without configured API
key/secret, formatted with the exchange name by fmt.Errorf. -/
def warningAuthenticatedRequestWithoutCredentialsSet (name : String) : GoError :=
  .errorString (name ++ " authenticated HTTP request called but credentials are not set")

/-- An HTTP request as handed to the transport collaborator SendPayload. -/
structure HTTPRequest where
  verb : String
  url : String
  headers : List (String × String)
  body : String
deriving DecidableEq, Repr

/-- Everything observable about one call to SendAuthenticatedHTTPRequest:
either the MissingCredentials error or the signed request handed to the
transport, the nonce state after the call, and how many times the transport
collaborator was invoked. -/
structure AuthRequestOutcome where
  result : Except GoError HTTPRequest
  finalNonce : Int
  transportCalls : Nat

/-- Embedding of Liqui.SendAuthenticatedHTTPRequest (liqui.go lines 275-307).
The wall-clock reading time.Now().Unix() is the explicit parameter now; the
transport call SendPayload is external, so the function returns the request
it would be handed together with a transport invocation count. -/
def sendAuthenticatedHTTPRequest (l : LiquiBase) (now : Int) (method : String)
    (values : Values) : AuthRequestOutcome :=
  if !l.authenticatedAPISupport then
    ⟨.error (warningAuthenticatedRequestWithoutCredentialsSet l.name), l.nonce, 0⟩
  else
    let n := nonceAfterCall now l.nonce
    let vs := valuesSet (valuesSet values "nonce" (nonceString n)) "method" method
    let encoded := valuesEncode vs
    let hmac := getHMAC (strBytes encoded) (strBytes l.apiSecret)
    ⟨.ok ⟨"POST", l.apiUrlSecondary,
        [("Key", l.apiKey), ("Sign", hexEncodeToString hmac),
         ("Content-Type", "application/x-www-form-urlencoded")], encoded⟩,
     n, 1⟩

/-- Replace the session nonce of a Liqui receiver. -/
def setNonce (l : LiquiBase) (n : Int) : LiquiBase :=
  { l with nonce := n }

/-- The nonces emitted by a sequence of calls to the signing path, one call per
wall-clock reading in the list, threading the nonce state through the
receiver exactly as SendAuthenticatedHTTPRequest leaves it. -/
def signingNonceTrace (l : LiquiBase) (times : List Int) (method : String)
    (vals : Values) : List Int :=
  match times with
  | [] => []
  | t :: ts =>
      let out := sendAuthenticatedHTTPRequest l t method vals
      out.finalNonce :: signingNonceTrace (setNonce l out.finalNonce) ts method vals

/-- Fee-type tags of the exchange.FeeBuilder switch in liqui.go: the two tags
the switch names, and a tag standing for every other value of the exchange
package's fee-type enumeration (which falls through the switch). -/
inductive FeeType where
  | cryptocurrencyTradeFee
  | cryptocurrencyWithdrawalFee
  | otherFee
deriving DecidableEq, Repr

/-- The exchange.FeeBuilder fields read by Liqui.GetFee. Go float64 amounts are
modelled as rationals. -/
structure FeeBuilder where
  feeType : FeeType
  purchasePrice : ℚ
  amount : ℚ
  isMaker : Bool
  firstCurrency : String
deriving DecidableEq, Repr

/-- Embedding of calculateTradingFee (liqui.go lines 330-337): maker rate
0.001, taker rate 0.0025, times price times amount. -/
def calculateTradingFee (purchasePrice amount : ℚ) (isMaker : Bool) : ℚ :=
  (if isMaker then (1 : ℚ) / 1000 else (25 : ℚ) / 10000) * purchasePrice * amount

/-- Embedding of getCryptocurrencyWithdrawalFee (liqui.go lines 326-328): a Go
map read of the package-level WithdrawalFees table, absent currencies reading
as zero. The table itself lives in a source file outside the given sources,
so it is a parameter here. -/
def getCryptocurrencyWithdrawalFee (withdrawalFees : List (String × ℚ))
    (currency : String) : ℚ :=
  (alookup withdrawalFees currency).getD 0

/-- Embedding of Liqui.GetFee (liqui.go lines 310-324): dispatch on the fee
type, then floor any negative fee at zero; the error result is always nil. -/
def GetFee (withdrawalFees : List (String × ℚ)) (fb : FeeBuilder) :
    ℚ × Option GoError :=
  let fee :=
    match fb.feeType with
    | .cryptocurrencyTradeFee => calculateTradingFee fb.purchasePrice fb.amount fb.isMaker
    | .cryptocurrencyWithdrawalFee =>
        getCryptocurrencyWithdrawalFee withdrawalFees fb.firstCurrency
    | .otherFee => 0
  (if fee < 0 then 0 else fee, none)

/-- The per-pair entry of the liqui Info.Pairs table, restricted to the field
GetAvailablePairs reads. -/
structure PairInfo where
  hidden : Int
deriving DecidableEq, Repr

/-- The liqui Info structure, restricted to the Pairs table; the Go map is an
association list here (GetAvailablePairs only ranges over it, and the claims
about it are membership claims, indifferent to iteration order). -/
structure Info where
  pairs : List (String × PairInfo)
deriving DecidableEq, Repr

/-- Embedding of Liqui.GetAvailablePairs (liqui.go lines 113-122): range over
the Info.Pairs table, skip hidden pairs when nonHidden is set and skip the
empty key, collect the uppercased keys. The continue-filter loop is rendered
as filter then map. -/
def GetAvailablePairs (info : Info) (nonHidden : Bool) : List String :=
  (info.pairs.filter
    (fun xy => !((nonHidden && (xy.2.hidden == 1)) || (xy.1 == "")))).map
    (fun xy => stringToUpper xy.1)

/-- The liqui CancelOrder response payload. Its declaration lives in a source
file outside the given sources; CancelOrder never reads it, which is the very
point of claim C10, so its one field stands for arbitrary payload content. -/
structure CancelOrderData where
  payload : String
deriving DecidableEq, Repr

/-- Embedding of Liqui.CancelOrder (liqui.go lines 231-243): build the
order_id parameter set, issue the authenticated request, and return false
with the error when it fails, true with nil when it succeeds. The transport
parameter is the decode outcome the external SendPayload call would produce;
the composite error of the Go call is the credential error when the check
fails, otherwise the transport error. -/
def CancelOrder (l : LiquiBase) (now : Int) (orderID : Int)
    (transport : Except GoError CancelOrderData) : Bool × Option GoError :=
  let req : Values := [("order_id", toString orderID)]
  let auth := sendAuthenticatedHTTPRequest l now liquiCancelOrder req
  match auth.result with
  | .error e => (false, some e)
  | .ok _ =>
      match transport with
      | .error e => (false, some e)
      | .ok _ => (true, none)

end Liqui

namespace Poloniex

/-- The currency pair type of the currency/pair package: ordered base and
quote currency codes. -/
structure CurrencyPair where
  base : String
  quote : String
deriving DecidableEq, Repr

/-- The ticker.Price fields UpdateTicker writes. Go float64 quantities are
modelled as rationals. -/
structure TickerPrice where
  pair : CurrencyPair
  ask : ℚ
  bid : ℚ
  high : ℚ
  last : ℚ
  low : ℚ
  volume : ℚ
deriving DecidableEq, Repr

/-- The fields of the poloniex Ticker wire structure that UpdateTicker reads. -/
structure RawTicker where
  lowestAsk : ℚ
  highestBid : ℚ
  high24Hr : ℚ
  last : ℚ
  low24Hr : ℚ
  baseVolume : ℚ
deriving DecidableEq, Repr

/-- The zero value of the poloniex Ticker structure, which a Go map read
yields for an absent key. -/
def zeroRawTicker : RawTicker := ⟨0, 0, 0, 0, 0, 0⟩

/-- Go map read of the batch ticker response: zero value when absent. -/
def mapGetTicker (m : List (String × RawTicker)) (k : String) : RawTicker :=
  (alookup m k).getD zeroRawTicker

/-- The cache key of the process-wide market-data caches: exchange name,
currency pair, asset type. -/
structure CacheKey where
  exchangeName : String
  pair : CurrencyPair
  assetType : String
deriving DecidableEq, Repr

/-- The process-wide ticker cache of the ticker package, as an association
list; the freshest entry for a key sits leftmost. -/
abbrev TickerCache := List (CacheKey × TickerPrice)

/-- Modelled from the spec: ticker.ProcessTicker (the ticker package is outside
the given sources) — MarketDataCache put, an unconditional overwrite of the
entry for (exchange, pair, asset type). -/
def tickerProcessTicker (c : TickerCache) (name : String) (p : CurrencyPair)
    (tp : TickerPrice) (assetType : String) : TickerCache :=
  (⟨name, p, assetType⟩, tp) :: c

/-- Modelled from the spec: ticker.GetTicker (the ticker package is outside the
given sources) — MarketDataCache get, a non-blocking lookup returning the
cached snapshot or a miss error. -/
def tickerGetTicker (c : TickerCache) (name : String) (p : CurrencyPair)
    (assetType : String) : Except GoError TickerPrice :=
  match alookup c ⟨name, p, assetType⟩ with
  | some t => .ok t
  | none => .error (errorsNew "no ticker found")

/-- Modelled from the spec: exchange.FormatExchangeCurrency (the exchange base
package is outside the given sources) — the poloniex wire rendering of a
pair: uppercase, underscore delimiter. -/
def formatExchangeCurrency (p : CurrencyPair) : String :=
  stringToUpper p.base ++ "_" ++ stringToUpper p.quote

/-- The Poloniex receiver fields the embedded wrapper functions read: the
exchange name and the enabled-pairs list GetEnabledCurrencies returns. -/
structure PoloniexBase where
  name : String
  enabledPairs : List CurrencyPair
deriving DecidableEq, Repr

/-- The ticker.Price snapshot the UpdateTicker loop body builds for one
enabled pair from that pair's entry of the batch response. -/
def tickerSnapshotOf (x : CurrencyPair) (raw : RawTicker) : TickerPrice :=
  ⟨x, raw.lowestAsk, raw.highestBid, raw.high24Hr, raw.last, raw.low24Hr,
    raw.baseVolume⟩

/-- One iteration of the UpdateTicker loop: read the enabled pair's wire entry
from the batch map (zero value when absent) and store its snapshot. -/
def tickerStoreStep (name assetType : String) (tick : List (String × RawTicker))
    (c : TickerCache) (x : CurrencyPair) : TickerCache :=
  tickerProcessTicker c name x
    (tickerSnapshotOf x (mapGetTicker tick (formatExchangeCurrency x))) assetType

/-- Embedding of Poloniex.UpdateTicker (part_000 lines 50-70): fetch the batch
ticker (the transport outcome is the explicit fetch parameter), and on
success build and store a snapshot for every enabled pair from the batch map
(a Go map read, zero-valued for pairs absent from the response), then return
the cache lookup for the requested pair. On fetch failure return the error
with the cache untouched. -/
def UpdateTicker (p : PoloniexBase) (cache : TickerCache)
    (fetch : Except GoError (List (String × RawTicker)))
    (currencyPair : CurrencyPair) (assetType : String) :
    Except GoError TickerPrice × TickerCache :=
  match fetch with
  | .error e => (.error e, cache)
  | .ok tick =>
      let cache' := p.enabledPairs.foldl (tickerStoreStep p.name assetType tick) cache
      (tickerGetTicker cache' p.name currencyPair assetType, cache')

/-- Embedding of Poloniex.GetTickerPrice (part_000 lines 73-79): return the
cached snapshot when the cache lookup succeeds, otherwise refresh through
UpdateTicker. The third component counts executions of the network-backed
refresh (the GetTicker transport call inside UpdateTicker). -/
def GetTickerPrice (p : PoloniexBase) (cache : TickerCache)
    (fetch : Except GoError (List (String × RawTicker)))
    (currencyPair : CurrencyPair) (assetType : String) :
    Except GoError TickerPrice × TickerCache × Nat :=
  match tickerGetTicker cache p.name currencyPair assetType with
  | .ok t => (.ok t, cache, 0)
  | .error _ =>
      let r := UpdateTicker p cache fetch currencyPair assetType
      (r.1, r.2, 1)

/-- One orderbook level: amount and price. -/
structure OrderbookItem where
  amount : ℚ
  price : ℚ
deriving DecidableEq, Repr

/-- The orderbook.Base snapshot UpdateOrderbook builds: pair, bid levels, ask
levels. -/
structure OrderbookBase where
  pair : CurrencyPair
  bids : List OrderbookItem
  asks : List OrderbookItem
deriving DecidableEq, Repr

/-- One pair's entry of the poloniex batch orderbook response. -/
structure RawOrderbookData where
  bids : List OrderbookItem
  asks : List OrderbookItem
deriving DecidableEq, Repr

/-- The poloniex batch orderbook response: wire pair string to data. -/
structure OrderbookResponse where
  data : List (String × RawOrderbookData)
deriving DecidableEq, Repr

/-- The process-wide orderbook cache of the orderbook package. -/
abbrev OrderbookCache := List (CacheKey × OrderbookBase)

/-- Modelled from the spec: orderbook.ProcessOrderbook (the orderbook package
is outside the given sources) — MarketDataCache put for orderbooks. -/
def orderbookProcessOrderbook (c : OrderbookCache) (name : String)
    (x : CurrencyPair) (ob : OrderbookBase) (assetType : String) : OrderbookCache :=
  (⟨name, x, assetType⟩, ob) :: c

/-- Modelled from the spec: orderbook.GetOrderbook (the orderbook package is
outside the given sources) — MarketDataCache get for orderbooks. -/
def orderbookGetOrderbook (c : OrderbookCache) (name : String) (p : CurrencyPair)
    (assetType : String) : Except GoError OrderbookBase :=
  match alookup c ⟨name, p, assetType⟩ with
  | some ob => .ok ob
  | none => .error (errorsNew "no orderbook found")

/-- The orderbook.Base snapshot the UpdateOrderbook loop body builds for one
enabled pair from that pair's entry of the batch response: its bid and ask
levels copied item by item. -/
def obSnapshotOf (x : CurrencyPair) (d : RawOrderbookData) : OrderbookBase :=
  ⟨x, d.bids.map (fun ob => ⟨ob.amount, ob.price⟩),
      d.asks.map (fun ob => ⟨ob.amount, ob.price⟩)⟩

/-- One iteration of the UpdateOrderbook loop: skip the enabled pair when its
wire string is absent from the batch response (the continue branch),
otherwise store the snapshot built from its own payload. -/
def obStoreStep (name assetType : String) (resp : OrderbookResponse)
    (c : OrderbookCache) (x : CurrencyPair) : OrderbookCache :=
  match alookup resp.data (formatExchangeCurrency x) with
  | none => c
  | some d => orderbookProcessOrderbook c name x (obSnapshotOf x d) assetType

/-- Embedding of Poloniex.UpdateOrderbook (part_000 lines 91-122): fetch the
batch orderbook, and for every enabled pair whose wire string is present in
the response copy its bid and ask levels into a fresh snapshot and store it;
pairs absent from the response are skipped by the continue branch. Finally
return the cache lookup for the requested pair. -/
def UpdateOrderbook (p : PoloniexBase) (cache : OrderbookCache)
    (fetch : Except GoError OrderbookResponse)
    (currencyPair : CurrencyPair) (assetType : String) :
    Except GoError OrderbookBase × OrderbookCache :=
  match fetch with
  | .error e => (.error e, cache)
  | .ok resp =>
      let cache' := p.enabledPairs.foldl (obStoreStep p.name assetType resp) cache
      (orderbookGetOrderbook cache' p.name currencyPair assetType, cache')

/-- Embedding of Poloniex.GetOrderbookEx (part_000 lines 82-88): return the
cached snapshot when the cache lookup succeeds, otherwise refresh through
UpdateOrderbook; the third component counts refresh executions. -/
def GetOrderbookEx (p : PoloniexBase) (cache : OrderbookCache)
    (fetch : Except GoError OrderbookResponse)
    (currencyPair : CurrencyPair) (assetType : String) :
    Except GoError OrderbookBase × OrderbookCache × Nat :=
  match orderbookGetOrderbook cache p.name currencyPair assetType with
  | .ok ob => (.ok ob, cache, 0)
  | .error _ =>
      let r := UpdateOrderbook p cache fetch currencyPair assetType
      (r.1, r.2, 1)

/-- Modelled from the spec: the ExchangeAPIError outcome — the exchange's own
envelope reports a logical failure, surfaced as an error carrying the
exchange-supplied message verbatim. In this codebase that surfacing produces
a plain string error, exactly as errors.New does. -/
def exchangeAPIError (msg : String) : GoError := .errorString msg

/-- Embedding of Poloniex.SubmitExchangeOrder (part_000 lines 157-160): an
unimplemented stub returning zero and a generic string error. -/
def SubmitExchangeOrder (_p : PoloniexBase) (_currencyPair : CurrencyPair)
    (_side _orderType : String) (_amount _price : ℚ) (_clientID : String) :
    Int × Option GoError :=
  (0, some (errorsNew "not yet implemented"))

/-- Embedding of Poloniex.CancelExchangeOrder (part_000 lines 169-171). -/
def CancelExchangeOrder (_p : PoloniexBase) (_orderID : Int) : Option GoError :=
  some (errorsNew "not yet implemented")

/-- Embedding of Poloniex.GetExchangeFundTransferHistory (part_000 lines
145-148): an empty history and a generic string error. -/
def GetExchangeFundTransferHistory (_p : PoloniexBase) :
    List Unit × Option GoError :=
  ([], some (errorsNew "not supported on exchange"))

end Poloniex

namespace Flight

/-
Interleaving model of N callers concurrently running Poloniex.GetTickerPrice
on the same uncached key. GetTickerPrice has no lock and no coalescing: each
caller (1) reads the cache, (2) on a miss performs the network fetch inside
UpdateTicker, (3) stores the result and returns it. Those three program
points are the atomic steps here; the shared state is the cache entry for the
one key and a counter of network-fetch executions. A schedule is the list of
caller indices in the order the scheduler runs them.
-/

/-- Program counter of one caller running the get-or-refresh path: about to
read the cache; holding a fetched value and about to store it; or finished
with its result, remembering whether it performed the fetch. -/
inductive CallerPC where
  | checking
  | storing (v : Poloniex.TickerPrice)
  | done (v : Poloniex.TickerPrice) (fetched : Bool)
deriving DecidableEq, Repr

/-- Shared state of the interleaving model: the cache entry for the one key,
the number of network-fetch executions so far, and every caller's program
counter. -/
structure SysState where
  cache : Option Poloniex.TickerPrice
  fetchCount : Nat
  callers : List CallerPC
deriving DecidableEq, Repr

/-- One atomic step of one caller of GetTickerPrice: a cache read that hits
returns the cached value without fetching; a read that misses performs the
fetch (counted); a store publishes the fetched value and returns it. -/
def stepCaller (fetchVal : Poloniex.TickerPrice) (cache : Option Poloniex.TickerPrice)
    (pc : CallerPC) : Option Poloniex.TickerPrice × Nat × CallerPC :=
  match pc with
  | .checking =>
      match cache with
      | some v => (some v, 0, .done v false)
      | none => (none, 1, .storing fetchVal)
  | .storing v => (some v, 0, .done v true)
  | .done v fl => (cache, 0, .done v fl)

/-- Run one step of the caller the schedule names; out-of-range indices are
no-ops. -/
def stepSystem (fetchVal : Poloniex.TickerPrice) (s : SysState) (i : Nat) : SysState :=
  match s.callers[i]? with
  | none => s
  | some pc =>
      let r := stepCaller fetchVal s.cache pc
      ⟨r.1, s.fetchCount + r.2.1, s.callers.set i r.2.2⟩

/-- Run a whole schedule of caller steps. -/
def runSched (fetchVal : Poloniex.TickerPrice) : SysState → List Nat → SysState
  | s, [] => s
  | s, i :: rest => runSched fetchVal (stepSystem fetchVal s i) rest

/-- Whether a caller has performed (or is in the middle of publishing) its own
network fetch. -/
def isFetcher (pc : CallerPC) : Bool :=
  match pc with
  | .storing _ => true
  | .done _ fl => fl
  | _ => false

/-- How many callers have performed their own network fetch. -/
def fetchedCount (pcs : List CallerPC) : Nat := pcs.countP isFetcher

end Flight

/-- Concrete Liqui receiver for the claim C1 witness: fresh session (nonce
zero), authenticated API enabled. -/
def c1Base : Liqui.LiquiBase :=
  ⟨"Liqui", true, "key", "secret", 0, "https://api.liqui.io/tapi"⟩

/-- Concrete Liqui receiver for the claim C2 witness: no credentials
configured (authenticated API disabled), mid-session nonce. -/
def c2Base : Liqui.LiquiBase :=
  ⟨"Liqui", false, "", "", 7, "https://api.liqui.io/tapi"⟩

/-- Concrete Liqui receiver for the claim C3 witness. -/
def c3L : Liqui.LiquiBase := ⟨"Liqui", true, "key-one", "shared-secret", 42, "url-one"⟩

/-- Second concrete Liqui receiver for the claim C3 witness: same secret and
nonce as c3L, different key, name and URL. -/
def c3L' : Liqui.LiquiBase := ⟨"Other", true, "key-two", "shared-secret", 42, "url-two"⟩

/-- Concrete Poloniex receiver for the claim C4 witness. -/
def c4p : Poloniex.PoloniexBase := ⟨"Poloniex", [⟨"BTC", "USDT"⟩]⟩

/-- Concrete pair for the claim C4 witness. -/
def c4pair : Poloniex.CurrencyPair := ⟨"BTC", "USDT"⟩

/-- Concrete cached ticker snapshot for the claim C4 witness. -/
def c4price : Poloniex.TickerPrice := ⟨c4pair, 1, 2, 3, 4, 5, 6⟩

/-- Concrete cached orderbook snapshot for the claim C4 witness. -/
def c4book : Poloniex.OrderbookBase := ⟨c4pair, [⟨1, 2⟩], [⟨3, 4⟩]⟩

/-- Concrete populated ticker cache for the claim C4 witness. -/
def c4tc : Poloniex.TickerCache := [(⟨"Poloniex", c4pair, "SPOT"⟩, c4price)]

/-- Concrete populated orderbook cache for the claim C4 witness. -/
def c4oc : Poloniex.OrderbookCache := [(⟨"Poloniex", c4pair, "SPOT"⟩, c4book)]

/-- Concrete ticker transport outcome for the claim C4 witness. -/
def c4fetchT : Except GoError (List (String × Poloniex.RawTicker)) :=
  .error (errorsNew "network down")

/-- Concrete orderbook transport outcome for the claim C4 witness. -/
def c4fetchO : Except GoError Poloniex.OrderbookResponse :=
  .error (errorsNew "network down")

/-- Concrete fetched ticker value for the claim C5 interleaving runs. -/
def c5fv : Poloniex.TickerPrice := ⟨⟨"BTC", "USDT"⟩, 1, 1, 1, 1, 1, 1⟩

/-- Initial state for the claim C5 runs: the key is uncached, no fetch has
run, two callers are about to read the cache. -/
def c5init : Flight.SysState := ⟨none, 0, [.checking, .checking]⟩

/-- Concrete Poloniex receiver for claim C6: two enabled pairs. -/
def c6polo : Poloniex.PoloniexBase := ⟨"Poloniex", [⟨"BTC", "USD"⟩, ⟨"ETH", "USD"⟩]⟩

/-- The healthy pair of the claim C6 batch. -/
def c6A : Poloniex.CurrencyPair := ⟨"BTC", "USD"⟩

/-- The pair missing from the claim C6 batch response. -/
def c6B : Poloniex.CurrencyPair := ⟨"ETH", "USD"⟩

/-- Claim C6 batch orderbook response: covers BTC_USD only; ETH_USD is absent. -/
def c6resp : Poloniex.OrderbookResponse :=
  ⟨[("BTC_USD", ⟨[⟨2, 100⟩], [⟨3, 101⟩]⟩)]⟩

/-- The snapshot the claim C6 batch installs for BTC_USD. -/
def c6bookA : Poloniex.OrderbookBase := ⟨c6A, [⟨2, 100⟩], [⟨3, 101⟩]⟩

/-- A stale pre-existing cache entry for ETH_USD used by the claim C6 witness. -/
def c6oldB : Poloniex.OrderbookBase := ⟨c6B, [⟨9, 90⟩], [⟨9, 99⟩]⟩

/-- Pre-existing orderbook cache for the claim C6 witness. -/
def c6cache : Poloniex.OrderbookCache := [(⟨"Poloniex", c6B, "SPOT"⟩, c6oldB)]

/-- Claim C6 batch ticker response: covers BTC_USD only; ETH_USD is absent. -/
def c6tick : List (String × Poloniex.RawTicker) := [("BTC_USD", ⟨1, 2, 3, 4, 5, 6⟩)]

/-- Concrete Poloniex receiver for the claim C7 counterexample. -/
def c7p : Poloniex.PoloniexBase := ⟨"Poloniex", []⟩

/-- Concrete liqui Info table for the claim C9 witness: one visible pair, one
empty key, one hidden pair. -/
def c9Info : Liqui.Info := ⟨[("eth_btc", ⟨0⟩), ("", ⟨0⟩), ("hid_pair", ⟨1⟩)]⟩

@[simp]
theorem alookup_nil {α β : Type} [DecidableEq α] (key : α) :
    alookup ([] : List (α × β)) key = none := rfl

@[simp]
theorem alookup_cons {α β : Type} [DecidableEq α] (k : α) (v : β) (t : List (α × β))
    (key : α) :
    alookup ((k, v) :: t) key = if key = k then some v else alookup t key := rfl

theorem lowerHexDigit_mem (m : Nat) : lowerHexDigit m ∈ hexCharsLower := by
  rcases m with _|_|_|_|_|_|_|_|_|_|_|_|_|_|_|_|n
  · decide
  · decide
  · decide
  · decide
  · decide
  · decide
  · decide
  · decide
  · decide
  · decide
  · decide
  · decide
  · decide
  · decide
  · decide
  · decide
  · show 'f' ∈ hexCharsLower
    decide

theorem hexDigitsOf_subset (bs : List Nat) :
    ∀ c ∈ hexDigitsOf bs, c ∈ hexCharsLower := by
  induction bs with
  | nil => intro c hc; simp [hexDigitsOf] at hc
  | cons b t ih =>
      intro c hc
      have hc' : c = lowerHexDigit (b / 16 % 16) ∨ c = lowerHexDigit (b % 16) ∨
          c ∈ hexDigitsOf t := by
        simpa [hexDigitsOf] using hc
      rcases hc' with h | h | h
      · exact h ▸ lowerHexDigit_mem _
      · exact h ▸ lowerHexDigit_mem _
      · exact ih c h

theorem hexEncodeToString_lower (bs : List Nat) :
    ∀ c ∈ (hexEncodeToString bs).toList, c ∈ hexCharsLower := by
  intro c hc
  exact hexDigitsOf_subset bs c hc

namespace Liqui

theorem sendAuth_ok (l : LiquiBase) (now : Int) (method : String) (vals : Values)
    (hauth : l.authenticatedAPISupport = true) :
    sendAuthenticatedHTTPRequest l now method vals =
      ⟨.ok ⟨"POST", l.apiUrlSecondary,
          [("Key", l.apiKey),
           ("Sign", hexEncodeToString (getHMAC (strBytes (valuesEncode (valuesSet
             (valuesSet vals "nonce" (nonceString (nonceAfterCall now l.nonce)))
             "method" method))) (strBytes l.apiSecret))),
           ("Content-Type", "application/x-www-form-urlencoded")],
          valuesEncode (valuesSet (valuesSet vals "nonce"
            (nonceString (nonceAfterCall now l.nonce))) "method" method)⟩,
       nonceAfterCall now l.nonce, 1⟩ := by
  simp [sendAuthenticatedHTTPRequest, hauth]

theorem signingNonceTrace_pos (method : String) (vals : Values) :
    ∀ (ts : List Int) (l : LiquiBase), l.authenticatedAPISupport = true → 0 < l.nonce →
      signingNonceTrace l ts method vals =
        List.map (fun i : Nat => l.nonce + 1 + (i : Int)) (List.range ts.length) := by
  intro ts
  induction ts with
  | nil => intro l _ _; simp [signingNonceTrace]
  | cons t ts ih =>
      intro l hauth hpos
      have hne : ¬ nonceGet l.nonce = 0 := by
        simp only [nonceGet]
        omega
      have hstep : (sendAuthenticatedHTTPRequest l t method vals).finalNonce =
          l.nonce + 1 := by
        rw [sendAuth_ok l t method vals hauth]
        simp [nonceAfterCall, nonceInc, hne]
      have hrest := ih (setNonce l (l.nonce + 1)) (by simpa [setNonce] using hauth)
        (by simp [setNonce]; omega)
      simp only [signingNonceTrace, hstep]
      rw [hrest]
      simp only [setNonce, List.length_cons]
      rw [List.range_succ_eq_map, List.map_cons, List.map_map]
      congr 1
      · simp
      · refine List.map_congr_left ?_
        intro i _
        simp only [Function.comp_apply]
        push_cast
        ring

end Liqui

/-- Claim C1: for every session of authenticated requests, the first signed
request's nonce is seeded from the wall clock (seconds) and every subsequent
signed request uses the previous nonce plus one, so the nonces emitted by the
signing path of a fresh session (nonce zero) with a positive first wall-clock
reading are exactly seed, seed+1, seed+2, ..., a strictly increasing sequence
with no nonce ever reused, each call past the first advancing the nonce state
by exactly one. -/
theorem liqui_nonce_session_C1 (l : Liqui.LiquiBase) (t0 : Int) (ts : List Int)
    (method : String) (vals : Values)
    (hauth : l.authenticatedAPISupport = true) (hfresh : l.nonce = 0)
    (hseed : 0 < t0) :
    Liqui.signingNonceTrace l (t0 :: ts) method vals =
      List.map (fun i : Nat => t0 + (i : Int)) (List.range (ts.length + 1)) ∧
    List.Pairwise (· < ·) (Liqui.signingNonceTrace l (t0 :: ts) method vals) := by
  have hfirst : (Liqui.sendAuthenticatedHTTPRequest l t0 method vals).finalNonce = t0 := by
    rw [Liqui.sendAuth_ok l t0 method vals hauth]
    simp [Liqui.nonceAfterCall, Liqui.nonceGet, Liqui.nonceSet, hfresh]
  have hrest := Liqui.signingNonceTrace_pos method vals ts (Liqui.setNonce l t0)
    (by simpa [Liqui.setNonce] using hauth) (by simpa [Liqui.setNonce] using hseed)
  have htr : Liqui.signingNonceTrace l (t0 :: ts) method vals =
      List.map (fun i : Nat => t0 + (i : Int)) (List.range (ts.length + 1)) := by
    simp only [Liqui.signingNonceTrace, hfirst]
    rw [hrest]
    simp only [Liqui.setNonce]
    rw [List.range_succ_eq_map, List.map_cons, List.map_map]
    congr 1
    · simp
    · refine List.map_congr_left ?_
      intro i _
      simp only [Function.comp_apply]
      push_cast
      ring
  refine ⟨htr, ?_⟩
  rw [htr]
  refine List.Pairwise.map _ ?_ (List.pairwise_lt_range (ts.length + 1))
  intro a b hab
  omega

/-- Witness for claim C1: a fresh authenticated session seeded at wall-clock
1500000000 with three signing calls emits the nonces 1500000000, 1500000001,
1500000002 in strictly increasing order. -/
theorem liqui_nonce_session_C1_witness :
    c1Base.authenticatedAPISupport = true ∧ c1Base.nonce = 0 ∧
    (0 : Int) < 1500000000 ∧
    (Liqui.signingNonceTrace c1Base [1500000000, 7, 9] "getInfo" [] =
        List.map (fun i : Nat => 1500000000 + (i : Int)) (List.range 3) ∧
      List.Pairwise (· < ·)
        (Liqui.signingNonceTrace c1Base [1500000000, 7, 9] "getInfo" [])) :=
  ⟨rfl, rfl, by decide,
    liqui_nonce_session_C1 c1Base 1500000000 [7, 9] "getInfo" [] rfl rfl (by decide)⟩

/-- Claim C2: a private call without configured credentials fails immediately
with the MissingCredentials outcome and performs zero transport calls: the
credential check precedes the nonce advance (the nonce state is unchanged),
the body build (no request value is produced) and the transport invocation
(transport call count zero). -/
theorem liqui_missing_credentials_C2 (l : Liqui.LiquiBase) (now : Int)
    (method : String) (vals : Values)
    (h : l.authenticatedAPISupport = false) :
    Liqui.sendAuthenticatedHTTPRequest l now method vals =
      ⟨.error (Liqui.warningAuthenticatedRequestWithoutCredentialsSet l.name),
        l.nonce, 0⟩ := by
  simp [Liqui.sendAuthenticatedHTTPRequest, h]

/-- Witness for claim C2: a concrete receiver with no configured credentials
and nonce 7 fails with the MissingCredentials outcome, leaves the nonce at 7
and performs zero transport calls. -/
theorem liqui_missing_credentials_C2_witness :
    c2Base.authenticatedAPISupport = false ∧
    Liqui.sendAuthenticatedHTTPRequest c2Base 1500000000 "getInfo" [] =
      ⟨.error (Liqui.warningAuthenticatedRequestWithoutCredentialsSet c2Base.name),
        c2Base.nonce, 0⟩ :=
  ⟨rfl, liqui_missing_credentials_C2 c2Base 1500000000 "getInfo" [] rfl⟩

/-- Claim C3: on every signing invocation the request body is the
deterministic form-url-encoded rendering of the parameter set after nonce and
method are inserted, the request carries exactly the headers Key (API key),
Sign (the lowercase-hex HMAC-SHA512 of the body under the configured secret)
and Content-Type application/x-www-form-urlencoded, every character of the
signature is a lowercase hex digit, and two runs with the same secret,
parameter set and nonce produce an identical body and an identical
signature. -/
theorem liqui_signing_C3 (l l' : Liqui.LiquiBase) (now : Int) (method : String)
    (vals : Values)
    (hauth : l.authenticatedAPISupport = true)
    (hauth' : l'.authenticatedAPISupport = true)
    (hsec : l.apiSecret = l'.apiSecret) (hn : l.nonce = l'.nonce) :
    ∃ req req',
      (Liqui.sendAuthenticatedHTTPRequest l now method vals).result = .ok req ∧
      (Liqui.sendAuthenticatedHTTPRequest l' now method vals).result = .ok req' ∧
      req.body = valuesEncode (valuesSet (valuesSet vals "nonce"
        (Liqui.nonceString (Liqui.nonceAfterCall now l.nonce))) "method" method) ∧
      req.headers = [("Key", l.apiKey),
        ("Sign", hexEncodeToString (getHMAC (strBytes req.body) (strBytes l.apiSecret))),
        ("Content-Type", "application/x-www-form-urlencoded")] ∧
      (∀ c ∈ (hexEncodeToString (getHMAC (strBytes req.body)
          (strBytes l.apiSecret))).toList, c ∈ hexCharsLower) ∧
      req'.body = req.body ∧
      alookup req'.headers "Sign" = alookup req.headers "Sign" := by
  rw [Liqui.sendAuth_ok l now method vals hauth,
    Liqui.sendAuth_ok l' now method vals hauth']
  refine ⟨_, _, rfl, rfl, rfl, rfl, hexEncodeToString_lower _, ?_, ?_⟩
  · simp only
    rw [hn]
  · simp [hsec, hn]

/-- Witness for claim C3: two concrete receivers sharing secret and nonce but
differing in key, name and URL produce a signed request with the specified
body, headers and lowercase-hex signature, and their bodies and signatures
coincide. -/
theorem liqui_signing_C3_witness :
    c3L.authenticatedAPISupport = true ∧ c3L'.authenticatedAPISupport = true ∧
    c3L.apiSecret = c3L'.apiSecret ∧ c3L.nonce = c3L'.nonce ∧
    (∃ req req',
      (Liqui.sendAuthenticatedHTTPRequest c3L 99 "getInfo" []).result = .ok req ∧
      (Liqui.sendAuthenticatedHTTPRequest c3L' 99 "getInfo" []).result = .ok req' ∧
      req.body = valuesEncode (valuesSet (valuesSet [] "nonce"
        (Liqui.nonceString (Liqui.nonceAfterCall 99 c3L.nonce))) "method" "getInfo") ∧
      req.headers = [("Key", c3L.apiKey),
        ("Sign", hexEncodeToString (getHMAC (strBytes req.body) (strBytes c3L.apiSecret))),
        ("Content-Type", "application/x-www-form-urlencoded")] ∧
      (∀ c ∈ (hexEncodeToString (getHMAC (strBytes req.body)
          (strBytes c3L.apiSecret))).toList, c ∈ hexCharsLower) ∧
      req'.body = req.body ∧
      alookup req'.headers "Sign" = alookup req.headers "Sign") :=
  ⟨rfl, rfl, rfl, rfl, liqui_signing_C3 c3L c3L' 99 "getInfo" [] rfl rfl rfl rfl⟩

/-- Claim C4: for every (exchange, pair, asset-type) key, the get-or-refresh
operation returns the cached snapshot with zero refresh executions when an
entry is present, and when no entry is present it executes the refresh
exactly once, stores whatever the refresh stores, and returns exactly the
refresh's result or error — on both the ticker path (GetTickerPrice /
UpdateTicker) and the orderbook path (GetOrderbookEx / UpdateOrderbook). -/
theorem cache_get_or_refresh_C4 (p : Poloniex.PoloniexBase)
    (tc : Poloniex.TickerCache) (oc : Poloniex.OrderbookCache)
    (ft : Except GoError (List (String × Poloniex.RawTicker)))
    (fo : Except GoError Poloniex.OrderbookResponse)
    (cp : Poloniex.CurrencyPair) (assetType : String) :
    (∀ t, alookup tc ⟨p.name, cp, assetType⟩ = some t →
        Poloniex.GetTickerPrice p tc ft cp assetType = (.ok t, tc, 0)) ∧
    (alookup tc ⟨p.name, cp, assetType⟩ = none →
        Poloniex.GetTickerPrice p tc ft cp assetType =
          ((Poloniex.UpdateTicker p tc ft cp assetType).1,
           (Poloniex.UpdateTicker p tc ft cp assetType).2, 1)) ∧
    (∀ ob, alookup oc ⟨p.name, cp, assetType⟩ = some ob →
        Poloniex.GetOrderbookEx p oc fo cp assetType = (.ok ob, oc, 0)) ∧
    (alookup oc ⟨p.name, cp, assetType⟩ = none →
        Poloniex.GetOrderbookEx p oc fo cp assetType =
          ((Poloniex.UpdateOrderbook p oc fo cp assetType).1,
           (Poloniex.UpdateOrderbook p oc fo cp assetType).2, 1)) := by
  refine ⟨?_, ?_, ?_, ?_⟩
  · intro t ht
    simp [Poloniex.GetTickerPrice, Poloniex.tickerGetTicker, ht]
  · intro ht
    simp [Poloniex.GetTickerPrice, Poloniex.tickerGetTicker, ht]
  · intro ob hob
    simp [Poloniex.GetOrderbookEx, Poloniex.orderbookGetOrderbook, hob]
  · intro hob
    simp [Poloniex.GetOrderbookEx, Poloniex.orderbookGetOrderbook, hob]

/-- Witness for claim C4: with a populated cache the concrete snapshot is
returned with zero refresh executions; with an empty cache the refresh runs
exactly once and its result is returned, on both paths. -/
theorem cache_get_or_refresh_C4_witness :
    (alookup c4tc ⟨c4p.name, c4pair, "SPOT"⟩ = some c4price ∧
      Poloniex.GetTickerPrice c4p c4tc c4fetchT c4pair "SPOT" = (.ok c4price, c4tc, 0)) ∧
    (alookup ([] : Poloniex.TickerCache) ⟨c4p.name, c4pair, "SPOT"⟩ = none ∧
      Poloniex.GetTickerPrice c4p [] c4fetchT c4pair "SPOT" =
        ((Poloniex.UpdateTicker c4p [] c4fetchT c4pair "SPOT").1,
         (Poloniex.UpdateTicker c4p [] c4fetchT c4pair "SPOT").2, 1)) ∧
    (alookup c4oc ⟨c4p.name, c4pair, "SPOT"⟩ = some c4book ∧
      Poloniex.GetOrderbookEx c4p c4oc c4fetchO c4pair "SPOT" = (.ok c4book, c4oc, 0)) ∧
    (alookup ([] : Poloniex.OrderbookCache) ⟨c4p.name, c4pair, "SPOT"⟩ = none ∧
      Poloniex.GetOrderbookEx c4p [] c4fetchO c4pair "SPOT" =
        ((Poloniex.UpdateOrderbook c4p [] c4fetchO c4pair "SPOT").1,
         (Poloniex.UpdateOrderbook c4p [] c4fetchO c4pair "SPOT").2, 1)) :=
  ⟨⟨by decide,
      (cache_get_or_refresh_C4 c4p c4tc [] c4fetchT c4fetchO c4pair "SPOT").1 c4price
        (by decide)⟩,
    ⟨rfl,
      (cache_get_or_refresh_C4 c4p [] [] c4fetchT c4fetchO c4pair "SPOT").2.1 rfl⟩,
    ⟨by decide,
      (cache_get_or_refresh_C4 c4p [] c4oc c4fetchT c4fetchO c4pair "SPOT").2.2.1 c4book
        (by decide)⟩,
    ⟨rfl,
      (cache_get_or_refresh_C4 c4p [] [] c4fetchT c4fetchO c4pair "SPOT").2.2.2 rfl⟩⟩

/-- Claim C8: fee estimation is a pure function — the error component is
always nil — and never returns a negative fee for any combination of fee-type
tag, maker/taker flag, purchase price and amount (negative and zero values
included), because a negative intermediate fee is floored at zero. -/
theorem liqui_fee_nonnegative_C8 (withdrawalFees : List (String × ℚ))
    (fb : Liqui.FeeBuilder) :
    0 ≤ (Liqui.GetFee withdrawalFees fb).1 ∧
    (Liqui.GetFee withdrawalFees fb).2 = none := by
  constructor
  · simp only [Liqui.GetFee]
    split
    · exact le_refl 0
    · next h =>
        push_neg at h
        exact h
  · rfl

/-- Claim C9: every pair string GetAvailablePairs returns is the uppercase
form of a key of the Info.Pairs table, a pair whose key is the empty string
is never returned, and with the nonHidden flag set a pair marked hidden
(Hidden equal to one) is never returned. -/
theorem liqui_available_pairs_C9 (info : Liqui.Info) (nonHidden : Bool) (s : String)
    (hs : s ∈ Liqui.GetAvailablePairs info nonHidden) :
    ∃ k v, (k, v) ∈ info.pairs ∧ s = stringToUpper k ∧ k ≠ "" ∧
      (nonHidden = true → v.hidden ≠ 1) := by
  unfold Liqui.GetAvailablePairs at hs
  rcases List.mem_map.mp hs with ⟨xy, hmem, hmap⟩
  rcases List.mem_filter.mp hmem with ⟨hin, hcond⟩
  simp only [Bool.not_eq_true', Bool.or_eq_false_iff, Bool.and_eq_false_iff,
    beq_eq_false_iff_ne, ne_eq] at hcond
  refine ⟨xy.1, xy.2, by simpa using hin, hmap.symm, hcond.2, ?_⟩
  intro hnh hh
  rcases hcond.1 with h | h
  · rw [hnh] at h
    cases h
  · exact h hh

/-- Witness for claim C9: from a table with a visible pair, an empty key and
a hidden pair, the returned string ETH_BTC is the uppercase of the nonempty,
non-hidden key eth_btc. -/
theorem liqui_available_pairs_C9_witness :
    "ETH_BTC" ∈ Liqui.GetAvailablePairs c9Info true ∧
    (∃ k v, (k, v) ∈ c9Info.pairs ∧ "ETH_BTC" = stringToUpper k ∧ k ≠ "" ∧
      (true = true → v.hidden ≠ 1)) := by
  have hm : "ETH_BTC" ∈ Liqui.GetAvailablePairs c9Info true := by decide
  exact ⟨hm, liqui_available_pairs_C9 c9Info true "ETH_BTC" hm⟩

/-- Claim C10: CancelOrder's boolean carries no information beyond the error —
the call returns (true, nil) exactly when the authenticated request reports
no error (credentials configured and transport success), otherwise (false,
the error), and the boolean never depends on the content of the cancellation
response payload. -/
theorem liqui_cancel_order_C10 (l : Liqui.LiquiBase) (now orderID : Int)
    (t : Except GoError Liqui.CancelOrderData) :
    ((∃ e, Liqui.CancelOrder l now orderID t = (false, some e)) ∨
      Liqui.CancelOrder l now orderID t = (true, none)) ∧
    (Liqui.CancelOrder l now orderID t = (true, none) ↔
      (l.authenticatedAPISupport = true ∧ ∃ d, t = .ok d)) ∧
    (∀ d₁ d₂ : Liqui.CancelOrderData,
      Liqui.CancelOrder l now orderID (.ok d₁) = Liqui.CancelOrder l now orderID (.ok d₂)) := by
  cases hb : l.authenticatedAPISupport with
  | false =>
      have hr : Liqui.sendAuthenticatedHTTPRequest l now Liqui.liquiCancelOrder
          [("order_id", toString orderID)] =
          ⟨.error (Liqui.warningAuthenticatedRequestWithoutCredentialsSet l.name),
            l.nonce, 0⟩ := by
        simp [Liqui.sendAuthenticatedHTTPRequest, hb]
      refine ⟨.inl ⟨Liqui.warningAuthenticatedRequestWithoutCredentialsSet l.name,
        by simp [Liqui.CancelOrder, hr]⟩, ?_, ?_⟩
      · constructor
        · intro h
          exfalso
          simp [Liqui.CancelOrder, hr] at h
        · rintro ⟨ht, -⟩
          cases ht
      · intro d₁ d₂
        simp [Liqui.CancelOrder, hr]
  | true =>
      have hr := Liqui.sendAuth_ok l now Liqui.liquiCancelOrder
        [("order_id", toString orderID)] hb
      cases t with
      | error e =>
          refine ⟨.inl ⟨e, by simp [Liqui.CancelOrder, hr]⟩, ?_, ?_⟩
          · constructor
            · intro h
              exfalso
              simp [Liqui.CancelOrder, hr] at h
            · rintro ⟨-, d, hd⟩
              cases hd
          · intro d₁ d₂
            simp [Liqui.CancelOrder, hr]
      | ok d =>
          refine ⟨.inr (by simp [Liqui.CancelOrder, hr]), ?_, ?_⟩
          · constructor
            · intro _
              exact ⟨rfl, d, rfl⟩
            · intro _
              simp [Liqui.CancelOrder, hr]
          · intro d₁ d₂
            simp [Liqui.CancelOrder, hr]


namespace Poloniex

theorem tickerStoreStep_lookup_other (name assetType : String)
    (tick : List (String × RawTicker)) (c : TickerCache)
    (x z : CurrencyPair) (hne : z ≠ x) :
    alookup (tickerStoreStep name assetType tick c x) ⟨name, z, assetType⟩ =
      alookup c ⟨name, z, assetType⟩ := by
  have hk : (⟨name, z, assetType⟩ : CacheKey) ≠ ⟨name, x, assetType⟩ := by
    intro h
    rw [CacheKey.mk.injEq] at h
    exact hne h.2.1
  simp [tickerStoreStep, tickerProcessTicker, hk]

theorem tickerFold_lookup_notmem (name assetType : String)
    (tick : List (String × RawTicker)) (x : CurrencyPair) :
    ∀ (l : List CurrencyPair) (c : TickerCache), x ∉ l →
      alookup (l.foldl (tickerStoreStep name assetType tick) c) ⟨name, x, assetType⟩ =
        alookup c ⟨name, x, assetType⟩ := by
  intro l
  induction l with
  | nil => intro c _; rfl
  | cons z t ih =>
      intro c hx
      have hxz : x ≠ z := fun h => hx (h ▸ List.mem_cons_self z t)
      have hxt : x ∉ t := fun h => hx (List.mem_cons_of_mem z h)
      rw [List.foldl_cons, ih _ hxt,
        tickerStoreStep_lookup_other name assetType tick c z x hxz]

theorem tickerFold_lookup_present (name assetType : String)
    (tick : List (String × RawTicker)) (x : CurrencyPair) :
    ∀ (l : List CurrencyPair) (c : TickerCache), x ∈ l →
      alookup (l.foldl (tickerStoreStep name assetType tick) c) ⟨name, x, assetType⟩ =
        some (tickerSnapshotOf x (mapGetTicker tick (formatExchangeCurrency x))) := by
  intro l
  induction l with
  | nil => intro c hx; cases hx
  | cons z t ih =>
      intro c hx
      rw [List.foldl_cons]
      by_cases hxt : x ∈ t
      · exact ih _ hxt
      · have hxz : x = z := by
          rcases List.mem_cons.mp hx with h | h
          · exact h
          · exact absurd h hxt
        subst hxz
        rw [tickerFold_lookup_notmem name assetType tick x t _ hxt]
        simp [tickerStoreStep, tickerProcessTicker]

theorem obStoreStep_lookup_other (name assetType : String) (resp : OrderbookResponse)
    (c : OrderbookCache) (x z : CurrencyPair) (hne : z ≠ x) :
    alookup (obStoreStep name assetType resp c x) ⟨name, z, assetType⟩ =
      alookup c ⟨name, z, assetType⟩ := by
  have hk : (⟨name, z, assetType⟩ : CacheKey) ≠ ⟨name, x, assetType⟩ := by
    intro h
    rw [CacheKey.mk.injEq] at h
    exact hne h.2.1
  unfold obStoreStep
  cases alookup resp.data (formatExchangeCurrency x) with
  | none => rfl
  | some d => simp [orderbookProcessOrderbook, hk]

theorem obFold_lookup_notmem (name assetType : String) (resp : OrderbookResponse)
    (x : CurrencyPair) :
    ∀ (l : List CurrencyPair) (c : OrderbookCache), x ∉ l →
      alookup (l.foldl (obStoreStep name assetType resp) c) ⟨name, x, assetType⟩ =
        alookup c ⟨name, x, assetType⟩ := by
  intro l
  induction l with
  | nil => intro c _; rfl
  | cons z t ih =>
      intro c hx
      have hxz : x ≠ z := fun h => hx (h ▸ List.mem_cons_self z t)
      have hxt : x ∉ t := fun h => hx (List.mem_cons_of_mem z h)
      rw [List.foldl_cons, ih _ hxt,
        obStoreStep_lookup_other name assetType resp c z x hxz]

theorem obFold_lookup_absent (name assetType : String) (resp : OrderbookResponse)
    (y : CurrencyPair)
    (hdy : alookup resp.data (formatExchangeCurrency y) = none) :
    ∀ (l : List CurrencyPair) (c : OrderbookCache),
      alookup (l.foldl (obStoreStep name assetType resp) c) ⟨name, y, assetType⟩ =
        alookup c ⟨name, y, assetType⟩ := by
  intro l
  induction l with
  | nil => intro c; rfl
  | cons z t ih =>
      intro c
      rw [List.foldl_cons, ih]
      by_cases hzy : y = z
      · subst hzy
        simp [obStoreStep, hdy]
      · exact obStoreStep_lookup_other name assetType resp c z y hzy

theorem obFold_lookup_present (name assetType : String) (resp : OrderbookResponse)
    (x : CurrencyPair) (dx : RawOrderbookData)
    (hdx : alookup resp.data (formatExchangeCurrency x) = some dx) :
    ∀ (l : List CurrencyPair) (c : OrderbookCache), x ∈ l →
      alookup (l.foldl (obStoreStep name assetType resp) c) ⟨name, x, assetType⟩ =
        some (obSnapshotOf x dx) := by
  intro l
  induction l with
  | nil => intro c hx; cases hx
  | cons z t ih =>
      intro c hx
      rw [List.foldl_cons]
      by_cases hxt : x ∈ t
      · exact ih _ hxt
      · have hxz : x = z := by
          rcases List.mem_cons.mp hx with h | h
          · exact h
          · exact absurd h hxt
        subst hxz
        rw [obFold_lookup_notmem name assetType resp x t _ hxt]
        simp [obStoreStep, hdx, orderbookProcessOrderbook]

end Poloniex

/-- Counterexample to claim C6: with both BTC_USD and ETH_USD enabled but
ETH_USD absent from the batch orderbook response, the batch refresh still
installs BTC_USD's snapshot and returns it as a success — yet no failure for
ETH_USD is reported anywhere in the call's output: its only output channels
are the returned result and the cache, the result is a success, and the
cache ends with no ETH_USD entry. The absent pair is silently skipped, so
the failing pair's failure is not reported separately as the claim states. -/
theorem batch_isolation_C6_counterexample :
    c6B ∈ c6polo.enabledPairs ∧
    alookup c6resp.data (Poloniex.formatExchangeCurrency c6B) = none ∧
    (Poloniex.UpdateOrderbook c6polo [] (.ok c6resp) c6A "SPOT").1 = .ok c6bookA ∧
    alookup (Poloniex.UpdateOrderbook c6polo [] (.ok c6resp) c6A "SPOT").2
      ⟨"Poloniex", c6B, "SPOT"⟩ = none ∧
    (∀ e, ¬ (Poloniex.UpdateOrderbook c6polo [] (.ok c6resp) c6A "SPOT").1 =
      Except.error e) := by
  have h3 : (Poloniex.UpdateOrderbook c6polo [] (.ok c6resp) c6A "SPOT").1 =
      .ok c6bookA := rfl
  refine ⟨by decide, by decide, h3, by decide, ?_⟩
  intro e h
  rw [h3] at h
  exact Except.noConfusion h

/-- Amended claim C6: each enabled pair's snapshot is validated and stored
independently — a pair present in the batch response is installed from its
own payload and a pair absent from the response leaves its previous cache
entry untouched, so one pair's missing data does not corrupt the others; but
the failing pair's failure is not reported: the orderbook path silently
skips it (the batch call still succeeds, returning only the requested pair's
lookup), and the ticker path silently installs a zero-valued snapshot for
it. -/
theorem batch_isolation_C6 (p : Poloniex.PoloniexBase)
    (ocache : Poloniex.OrderbookCache) (tcache : Poloniex.TickerCache)
    (resp : Poloniex.OrderbookResponse) (tick : List (String × Poloniex.RawTicker))
    (x y cp : Poloniex.CurrencyPair) (assetType : String)
    (dx : Poloniex.RawOrderbookData)
    (hx : x ∈ p.enabledPairs)
    (hdx : alookup resp.data (Poloniex.formatExchangeCurrency x) = some dx)
    (hdy : alookup resp.data (Poloniex.formatExchangeCurrency y) = none)
    (hy : y ∈ p.enabledPairs)
    (hty : alookup tick (Poloniex.formatExchangeCurrency y) = none) :
    alookup (Poloniex.UpdateOrderbook p ocache (.ok resp) cp assetType).2
        ⟨p.name, x, assetType⟩ = some (Poloniex.obSnapshotOf x dx) ∧
    alookup (Poloniex.UpdateOrderbook p ocache (.ok resp) cp assetType).2
        ⟨p.name, y, assetType⟩ = alookup ocache ⟨p.name, y, assetType⟩ ∧
    (Poloniex.UpdateOrderbook p ocache (.ok resp) cp assetType).1 =
      Poloniex.orderbookGetOrderbook
        (Poloniex.UpdateOrderbook p ocache (.ok resp) cp assetType).2
        p.name cp assetType ∧
    alookup (Poloniex.UpdateTicker p tcache (.ok tick) cp assetType).2
        ⟨p.name, y, assetType⟩ =
      some (Poloniex.tickerSnapshotOf y Poloniex.zeroRawTicker) := by
  refine ⟨?_, ?_, rfl, ?_⟩
  · simp only [Poloniex.UpdateOrderbook]
    exact Poloniex.obFold_lookup_present p.name assetType resp x dx hdx
      p.enabledPairs ocache hx
  · simp only [Poloniex.UpdateOrderbook]
    exact Poloniex.obFold_lookup_absent p.name assetType resp y hdy
      p.enabledPairs ocache
  · simp only [Poloniex.UpdateTicker]
    rw [Poloniex.tickerFold_lookup_present p.name assetType tick y
      p.enabledPairs tcache hy]
    simp [Poloniex.mapGetTicker, hty]

/-- Witness for the amended claim C6: in the concrete batch covering BTC_USD
only, BTC_USD's snapshot is installed from its own payload, ETH_USD's stale
cache entry is left untouched by the orderbook path, the batch call does not
fail, and the ticker path installs a zero-valued ETH_USD snapshot. -/
theorem batch_isolation_C6_witness :
    c6A ∈ c6polo.enabledPairs ∧
    alookup c6resp.data (Poloniex.formatExchangeCurrency c6A) =
      some ⟨[⟨2, 100⟩], [⟨3, 101⟩]⟩ ∧
    alookup c6resp.data (Poloniex.formatExchangeCurrency c6B) = none ∧
    c6B ∈ c6polo.enabledPairs ∧
    alookup c6tick (Poloniex.formatExchangeCurrency c6B) = none ∧
    (alookup (Poloniex.UpdateOrderbook c6polo c6cache (.ok c6resp) c6A "SPOT").2
        ⟨c6polo.name, c6A, "SPOT"⟩ =
        some (Poloniex.obSnapshotOf c6A ⟨[⟨2, 100⟩], [⟨3, 101⟩]⟩) ∧
      alookup (Poloniex.UpdateOrderbook c6polo c6cache (.ok c6resp) c6A "SPOT").2
        ⟨c6polo.name, c6B, "SPOT"⟩ = alookup c6cache ⟨c6polo.name, c6B, "SPOT"⟩ ∧
      (Poloniex.UpdateOrderbook c6polo c6cache (.ok c6resp) c6A "SPOT").1 =
        Poloniex.orderbookGetOrderbook
          (Poloniex.UpdateOrderbook c6polo c6cache (.ok c6resp) c6A "SPOT").2
          c6polo.name c6A "SPOT" ∧
      alookup (Poloniex.UpdateTicker c6polo [] (.ok c6tick) c6A "SPOT").2
        ⟨c6polo.name, c6B, "SPOT"⟩ =
        some (Poloniex.tickerSnapshotOf c6B Poloniex.zeroRawTicker)) :=
  ⟨by decide, by decide, by decide, by decide, by decide,
    batch_isolation_C6 c6polo c6cache [] c6resp c6tick c6A c6B c6A "SPOT"
      ⟨[⟨2, 100⟩], [⟨3, 101⟩]⟩ (by decide) (by decide) (by decide) (by decide)
      (by decide)⟩

namespace Flight

theorem countP_set_aux (p : CallerPC → Bool) :
    ∀ (l : List CallerPC) (i : Nat) (x y : CallerPC), l[i]? = some y →
      (l.set i x).countP p + (if p y then 1 else 0) =
        l.countP p + (if p x then 1 else 0) := by
  intro l
  induction l with
  | nil => intro i x y h; simp at h
  | cons a t ih =>
      intro i x y h
      cases i with
      | zero =>
          simp only [List.getElem?_cons_zero, Option.some_inj] at h
          subst h
          simp only [List.set_cons_zero, List.countP_cons]
          omega
      | succ n =>
          simp only [List.getElem?_cons_succ] at h
          have := ih n x y h
          simp only [List.set_cons_succ, List.countP_cons]
          omega

theorem stepSystem_invariant (fv : Poloniex.TickerPrice) (s : SysState) (i : Nat)
    (h : s.fetchCount = fetchedCount s.callers) :
    (stepSystem fv s i).fetchCount = fetchedCount (stepSystem fv s i).callers := by
  unfold stepSystem
  cases hpc : s.callers[i]? with
  | none => exact h
  | some pc =>
      have hcount := countP_set_aux isFetcher s.callers i
        (stepCaller fv s.cache pc).2.2 pc hpc
      have hd : (stepCaller fv s.cache pc).2.1 + (if isFetcher pc then 1 else 0) =
          (if isFetcher (stepCaller fv s.cache pc).2.2 then 1 else 0) := by
        cases pc with
        | checking =>
            cases s.cache with
            | some v => simp [stepCaller, isFetcher]
            | none => simp [stepCaller, isFetcher]
        | storing v => simp [stepCaller, isFetcher]
        | done v fl => cases fl <;> simp [stepCaller, isFetcher]
      simp only [fetchedCount] at h hcount ⊢
      omega

theorem runSched_invariant (fv : Poloniex.TickerPrice) (sched : List Nat) :
    ∀ s : SysState, s.fetchCount = fetchedCount s.callers →
      (runSched fv s sched).fetchCount = fetchedCount (runSched fv s sched).callers := by
  induction sched with
  | nil => intro s h; exact h
  | cons i rest ih =>
      intro s h
      simp only [runSched]
      exact ih _ (stepSystem_invariant fv s i h)

theorem stepSystem_length (fv : Poloniex.TickerPrice) (s : SysState) (i : Nat) :
    (stepSystem fv s i).callers.length = s.callers.length := by
  unfold stepSystem
  cases hpc : s.callers[i]? with
  | none => rfl
  | some pc => simp [List.length_set]

theorem runSched_length (fv : Poloniex.TickerPrice) (sched : List Nat) :
    ∀ s : SysState, (runSched fv s sched).callers.length = s.callers.length := by
  induction sched with
  | nil => intro s; rfl
  | cons i rest ih =>
      intro s
      simp only [runSched]
      rw [ih, stepSystem_length]

end Flight

/-- Counterexample to claim C5: two callers concurrently running the
get-or-refresh path of GetTickerPrice on the same uncached key, interleaved
so that both cache reads happen before either store, execute the network
refresh twice, not exactly once — the code has no single-flight coalescing. -/
theorem cache_single_flight_C5_counterexample :
    c5init.cache = none ∧ c5init.callers.length = 2 ∧
    (Flight.runSched c5fv c5init [0, 1, 0, 1]).fetchCount = 2 ∧
    ¬ (Flight.runSched c5fv c5init [0, 1, 0, 1]).fetchCount = 1 := by
  refine ⟨rfl, rfl, by decide, by decide⟩

/-- Amended claim C5: when N callers concurrently invoke the get-or-refresh
path for the same uncached key there is no coalescing — under every
interleaving, the number of refresh executions equals the number of callers
that observed a miss and ran their own refresh, bounded by N (one refresh
per caller), rather than being exactly one. -/
theorem cache_single_flight_C5 (fv : Poloniex.TickerPrice)
    (cache0 : Option Poloniex.TickerPrice) (pcs0 : List Flight.CallerPC)
    (sched : List Nat)
    (h0 : ∀ pc ∈ pcs0, pc = Flight.CallerPC.checking) :
    (Flight.runSched fv ⟨cache0, 0, pcs0⟩ sched).fetchCount =
      Flight.fetchedCount (Flight.runSched fv ⟨cache0, 0, pcs0⟩ sched).callers ∧
    (Flight.runSched fv ⟨cache0, 0, pcs0⟩ sched).fetchCount ≤ pcs0.length := by
  have hinit : (⟨cache0, 0, pcs0⟩ : Flight.SysState).fetchCount =
      Flight.fetchedCount pcs0 := by
    simp only [Flight.fetchedCount]
    symm
    rw [List.countP_eq_zero]
    intro a ha
    rw [h0 a ha]
    simp [Flight.isFetcher]
  have hmain := Flight.runSched_invariant fv sched ⟨cache0, 0, pcs0⟩ hinit
  refine ⟨hmain, ?_⟩
  rw [hmain]
  calc Flight.fetchedCount (Flight.runSched fv ⟨cache0, 0, pcs0⟩ sched).callers ≤
      (Flight.runSched fv ⟨cache0, 0, pcs0⟩ sched).callers.length :=
        List.countP_le_length _
    _ = pcs0.length := Flight.runSched_length fv sched ⟨cache0, 0, pcs0⟩

/-- Witness for the amended claim C5: on the concrete two-caller interleaved
run the fetch count equals the number of callers that fetched and is bounded
by two. -/
theorem cache_single_flight_C5_witness :
    (∀ pc ∈ ([.checking, .checking] : List Flight.CallerPC),
      pc = Flight.CallerPC.checking) ∧
    ((Flight.runSched c5fv ⟨none, 0, [.checking, .checking]⟩ [0, 1, 0, 1]).fetchCount =
        Flight.fetchedCount
          (Flight.runSched c5fv ⟨none, 0, [.checking, .checking]⟩ [0, 1, 0, 1]).callers ∧
      (Flight.runSched c5fv ⟨none, 0, [.checking, .checking]⟩ [0, 1, 0, 1]).fetchCount ≤
        ([.checking, .checking] : List Flight.CallerPC).length) :=
  ⟨by decide,
    cache_single_flight_C5 c5fv none [.checking, .checking] [0, 1, 0, 1] (by decide)⟩

/-- Counterexample to claim C7: the unsupported-operation outcome of
SubmitExchangeOrder is literally the same generic string-error value that an
exchange-reported failure carrying the message "not yet implemented" would
be — a plain errors.New string error with no distinguished
UnsupportedOperation type, so callers cannot distinguish it from a live
failure by anything but the message text. -/
theorem unsupported_operation_C7_counterexample :
    (Poloniex.SubmitExchangeOrder c7p ⟨"BTC", "USD"⟩ "buy" "limit" 1 1 "cid").2 =
      some (Poloniex.exchangeAPIError "not yet implemented") ∧
    Poloniex.exchangeAPIError "not yet implemented" =
      errorsNew "not yet implemented" :=
  ⟨rfl, rfl⟩

/-- Amended claim C7: operations the Poloniex adapter does not implement
return a generic string error with a fixed message — "not yet implemented"
for order submission and cancellation, "not supported on exchange" for fund
transfer history — not a distinguished UnsupportedOperation-typed outcome;
callers can tell such an outcome apart from other failures only by comparing
the message string. -/
theorem unsupported_operation_C7 (p : Poloniex.PoloniexBase)
    (cp : Poloniex.CurrencyPair) (side orderType : String) (amount price : ℚ)
    (clientID : String) (orderID : Int) :
    Poloniex.SubmitExchangeOrder p cp side orderType amount price clientID =
      (0, some (errorsNew "not yet implemented")) ∧
    Poloniex.CancelExchangeOrder p orderID = some (errorsNew "not yet implemented") ∧
    Poloniex.GetExchangeFundTransferHistory p =
      ([], some (errorsNew "not supported on exchange")) :=
  ⟨rfl, rfl, rfl⟩

end GCT
